import Mathlib

/- Verification of the tockers overlay core: score projection, round-label
parsing, match/round lifecycle recording, star-up counting, rarity
classification geometry, template-match deduplication, and the hex-grid
layout. Each definition is a shallow embedding of the corresponding Python
function in src/overlay. -/

namespace Tockers

/-! ## Score projection engine (overlay/strategy.py, StrategyEngine) -/

namespace StrategyEngine

/-- `StrategyEngine.component_score`: `num_components * 2500 * rounds_remaining`. -/
def component_score (num_components rounds_remaining : Nat) : Nat :=
  num_components * 2500 * rounds_remaining

/-- `StrategyEngine.interest`: `min(gold // 10, 5)`. -/
def interest (gold : Nat) : Nat :=
  min (gold / 10) 5

/-- The per-round interest value as computed inside `projected_score`:
`interest(gold) * 1000`. -/
def interest_value (gold : Nat) : Nat :=
  interest gold * 1000

structure ScoreProjection where
  component_pts : Nat
  interest_pts : Nat
  surviving_pts : Nat
  time_pts : Nat
  total : Nat
deriving DecidableEq

/-- `StrategyEngine.projected_score`: projects the final 30-round score.
The Python method takes `current_round` but does not use it (it fixes
`total_rounds = 30`). -/
def projected_score (current_round num_components gold surviving_units : Nat) :
    ScoreProjection :=
  let total_rounds := 30
  let component_pts := component_score num_components total_rounds
  let interest_pts := interest gold * 1000 * total_rounds
  let surviving_pts := surviving_units * 250 * total_rounds
  let time_pts := 2750 * total_rounds
  { component_pts := component_pts
    interest_pts := interest_pts
    surviving_pts := surviving_pts
    time_pts := time_pts
    total := component_pts + interest_pts + surviving_pts + time_pts }

end StrategyEngine

/-! ## Round-label parsing (overlay/main.py, `_round_str_to_int`) -/

/-- All-digit character list parsed as a natural number; `none` when empty or
when any character is not an ASCII digit (the failure cases of Python `int`). -/
def digitsToNat (cs : List Char) : Option Nat :=
  if cs.isEmpty then none
  else if cs.all (fun c => c.isDigit) then
    some (cs.foldl (fun n c => n * 10 + (c.toNat - 48)) 0)
  else none

/-- Both-ends whitespace strip, as Python `int` applies to its argument. -/
def pyTrim (cs : List Char) : List Char :=
  ((cs.dropWhile (fun c => c.isWhitespace)).reverse.dropWhile
    (fun c => c.isWhitespace)).reverse

/-- Model of Python `int(s)` on the characters of a string: strip surrounding
whitespace, accept an optional sign followed by a nonempty digit run,
otherwise fail (raise `ValueError`, here `none`). -/
def pyInt (s : List Char) : Option Int :=
  match pyTrim s with
  | '+' :: cs => (digitsToNat cs).map (fun n => (n : Int))
  | '-' :: cs => (digitsToNat cs).map (fun n => -(n : Int))
  | cs => (digitsToNat cs).map (fun n => (n : Int))

/-- Python `str.split(sep)` for a single-character separator, on char lists. -/
def splitOnChar (sep : Char) : List Char → List Char → List (List Char)
  | [], acc => [acc.reverse]
  | c :: rest, acc =>
    if c = sep then acc.reverse :: splitOnChar sep rest []
    else splitOnChar sep rest (c :: acc)

/-- `_round_str_to_int`: converts a label such as "2-5" to the absolute round
number `(stage - 1) * 10 + index`; returns 0 for `None`, the empty string,
dash-free strings, and labels whose parts fail integer parsing. Strings are
modelled by their character lists. -/
def round_str_to_int (round_str : Option String) : Int :=
  match round_str with
  | none => 0
  | some s =>
    if s.data.isEmpty then 0
    else if ¬ s.data.contains '-' then 0
    else
      match splitOnChar '-' s.data [] with
      | [stage, rnd] =>
        match pyInt stage, pyInt rnd with
        | some x, some y => (x - 1) * 10 + y
        | _, _ => 0
      | _ => 0

/-! ## Detected units (overlay/vision.py, `Match`) -/

/-- `vision.Match`: a template-match hit. `stars` is 0 when unknown,
1/2/3 when a star level was detected. -/
structure Match where
  name : String
  x : Int
  y : Int
  confidence : ℚ
  stars : Nat
deriving DecidableEq

/-! ## Lifecycle recorder (overlay/stats.py, `StatsRecorder`) -/

/-- Lookup in a Python dict modelled as an association list
(`d.get(k, dflt)`). -/
def dictGet (m : List (String × Nat)) (k : String) (dflt : Nat) : Nat :=
  match m.find? (fun p => p.1 == k) with
  | some p => p.2
  | none => dflt

/-- `d[k] = v` on a Python dict modelled as an association list: replace in
place when the key exists, append otherwise (insertion order preserved). -/
def dictSet (m : List (String × Nat)) (k : String) (v : Nat) :
    List (String × Nat) :=
  if m.any (fun p => p.1 == k) then
    m.map (fun p => if p.1 == k then (k, v) else p)
  else m ++ [(k, v)]

/-- `StatsRecorder._build_star_map`: `{champion_name: max_stars}` over
board + bench, in iteration order. -/
def build_star_map (board bench : Option (List Match)) :
    List (String × Nat) :=
  ((board.getD []) ++ (bench.getD [])).foldl
    (fun m c => dictSet m c.name (max (dictGet m c.name 0) c.stars)) []

/-- `StatsRecorder._count_star_ups`: for each champion in the current star
map whose stars exceed the previously seen stars and whose previous entry is
positive, add the difference `stars - prev`. -/
def count_star_ups (prev : List (String × Nat))
    (board bench : Option (List Match)) : Nat :=
  (build_star_map board bench).foldl
    (fun count p =>
      let pv := dictGet prev p.1 0
      if p.2 > pv ∧ pv > 0 then count + (p.2 - pv) else count) 0

/-- One row of the `runs` table. -/
structure RunRow where
  started_at : Nat
  ended_at : Option Nat
  rounds_completed : Nat
  end_reason : Option String
deriving DecidableEq

/-- One row of the `run_rounds` table. `board` and `bench` hold the
name/stars pairs serialized by `record_round`. -/
structure RoundRow where
  run_id : Nat
  round_number : String
  gold : Option Int
  level : Option Int
  lives : Option Int
  component_count : Int
  shop : List String
  items_built : Int
  life_lost : Int
  board : List (String × Nat)
  bench : List (String × Nat)
  projected_score : Option Int
  star_ups : Nat
deriving DecidableEq

/-- The recorder plus its database: the `runs` table is modelled as a map
from primary key to row, `run_rounds` as the append-only list of inserted
rows. `clock` stands for the wall clock used for timestamps. The remaining
fields are the `StatsRecorder` instance attributes. -/
structure RecorderState where
  runs : Nat → Option RunRow
  round_rows : List RoundRow
  next_id : Nat
  clock : Nat
  run_id : Option Nat
  rounds_completed : Nat
  prev_components : Option Int
  prev_lives : Option Int
  prev_champion_stars : List (String × Nat)

/-- A fresh recorder over an empty statistics database. -/
def initState : RecorderState where
  runs := fun _ => none
  round_rows := []
  next_id := 1
  clock := 0
  run_id := none
  rounds_completed := 0
  prev_components := none
  prev_lives := none
  prev_champion_stars := []

/-- `StatsRecorder.end_run`: stamp `ended_at` and `end_reason` on the active
run's row and deactivate; a no-op when no run is active. -/
def end_run (s : RecorderState) (reason : String) : RecorderState :=
  match s.run_id with
  | none => s
  | some rid =>
    { s with
      runs := fun i =>
        if i = rid then
          (s.runs i).map (fun r =>
            { r with ended_at := some s.clock, end_reason := some reason })
        else s.runs i
      clock := s.clock + 1
      run_id := none }

/-- `StatsRecorder.start_run`: auto-close any active run as "abandoned",
insert a fresh `runs` row with `rounds_completed = 0`, and reset the
previous-round trackers. -/
def start_run (s : RecorderState) : RecorderState :=
  let t := if s.run_id.isSome then end_run s "abandoned" else s
  { t with
    runs := fun i =>
      if i = t.next_id then
        some { started_at := t.clock, ended_at := none,
               rounds_completed := 0, end_reason := none }
      else t.runs i
    next_id := t.next_id + 1
    clock := t.clock + 1
    run_id := some t.next_id
    rounds_completed := 0
    prev_components := none
    prev_lives := none
    prev_champion_stars := [] }

/-- `StatsRecorder.record_round`: insert one `run_rounds` row with the
inferred `items_built`, `life_lost` and `star_ups`, bump the run's
`rounds_completed`, and update the previous-round trackers; a no-op when no
run is active. -/
def record_round (s : RecorderState) (round_number : String)
    (gold level lives : Option Int) (component_count : Int)
    (shop : List String) (board_champions bench_champions : Option (List Match))
    (projected_score : Option Int) : RecorderState :=
  match s.run_id with
  | none => s
  | some rid =>
    let items_built : Int :=
      max 0 ((match s.prev_components with
              | some p => p
              | none => component_count) - component_count)
    let life_lost : Int :=
      match s.prev_lives, lives with
      | some p, some l => max 0 (p - l)
      | _, _ => 0
    let star_ups := count_star_ups s.prev_champion_stars
      board_champions bench_champions
    let row : RoundRow :=
      { run_id := rid
        round_number := round_number
        gold := gold
        level := level
        lives := lives
        component_count := component_count
        shop := shop
        items_built := items_built
        life_lost := life_lost
        board := (board_champions.getD []).map (fun m => (m.name, m.stars))
        bench := (bench_champions.getD []).map (fun m => (m.name, m.stars))
        projected_score := projected_score
        star_ups := star_ups }
    let rc := s.rounds_completed + 1
    { s with
      round_rows := s.round_rows ++ [row]
      prev_champion_stars := build_star_map board_champions bench_champions
      rounds_completed := rc
      runs := fun i =>
        if i = rid then (s.runs i).map (fun r => { r with rounds_completed := rc })
        else s.runs i
      clock := s.clock + 1
      prev_components := some component_count
      prev_lives := if lives.isSome then lives else s.prev_lives }

/-- States reachable from a fresh recorder by the recorder's operations. -/
inductive Reachable : RecorderState → Prop where
  | init : Reachable initState
  | start {s} : Reachable s → Reachable (start_run s)
  | record {s} (round_number : String) (gold level lives : Option Int)
      (component_count : Int) (shop : List String)
      (board bench : Option (List Match)) (projected : Option Int) :
      Reachable s →
      Reachable (record_round s round_number gold level lives component_count
        shop board bench projected)
  | close {s} (reason : String) : Reachable s → Reachable (end_run s reason)

/-- Number of `run_rounds` rows recorded under run `rid`. -/
def rcountL (rows : List RoundRow) (rid : Nat) : Nat :=
  (rows.filter (fun rr => rr.run_id == rid)).length

/-- The database/recorder invariant maintained by every recorder operation:
ids beyond `next_id` are unused, every round row belongs to an allocated run,
every run row's `rounds_completed` counts exactly its round rows, a run is
closed exactly when it has an `ended_at` timestamp, and the active run (if
any) is an allocated, still-open run whose in-memory round counter matches
the database. -/
structure Inv (s : RecorderState) : Prop where
  fresh : ∀ i, s.next_id ≤ i → s.runs i = none
  rows_bound : ∀ rr ∈ s.round_rows, rr.run_id < s.next_id
  counts : ∀ i r, s.runs i = some r →
    r.rounds_completed = rcountL s.round_rows i
  closed_iff : ∀ i r, s.runs i = some r →
    (r.end_reason = none ↔ r.ended_at = none)
  active : ∀ rid, s.run_id = some rid → rid < s.next_id ∧
    s.rounds_completed = rcountL s.round_rows rid ∧
    ∃ r, s.runs rid = some r ∧ r.end_reason = none

/-- A unit detected at one star, then at three stars, under no other units. -/
def champA1 : Match := ⟨"A", 0, 0, 0, 1⟩

/-- The same unit one recorded round later at three stars. -/
def champA3 : Match := ⟨"A", 0, 0, 0, 3⟩

/-- The count the claim describes, written from the claim's words: the
number of units whose rarity strictly increased since the last recorded
round, not counting units newly appearing at rarity 1. -/
def starUpUnitCount (prev current : List (String × Nat)) : Nat :=
  (current.filter (fun p =>
    decide (p.2 > dictGet prev p.1 0 ∧
      ¬(dictGet prev p.1 0 = 0 ∧ p.2 = 1)))).length

/-- One pass of `vision_loop`'s lifecycle logic (overlay/main.py): the
completion-on-signal-loss check, then round-transition detection. Returns the
updated recorder state and the new `prev_round` cursor. Display-only effects
(overlay repaint, companion update, score projection emission, the background
strategy refresh) have no bearing on the recorder and are omitted. -/
def vision_cycle (rec : RecorderState) (prev_round cur_round : Option String)
    (gold level lives : Option Int) (num_components : Int)
    (shop : List String) : RecorderState × Option String :=
  let step1 :=
    if cur_round = none ∧ prev_round = some "3-10" ∧ rec.run_id ≠ none then
      (end_run (record_round rec "3-10" gold level lives num_components shop
        none none none) "completed", (none : Option String))
    else (rec, prev_round)
  let rec1 := step1.1
  let prev1 := step1.2
  match cur_round with
  | none => (rec1, prev1)
  | some cr =>
    if some cr = prev1 then (rec1, prev1)
    else if cr = "1-1" then
      (start_run (if rec1.run_id ≠ none then end_run rec1 "abandoned"
        else rec1), some cr)
    else
      match prev1 with
      | none => (rec1, some cr)
      | some p =>
        let rec2 := record_round rec1 p gold level lives num_components shop
          none none none
        (if p = "3-10" then end_run rec2 "completed" else rec2, some cr)

/-- Stable descending-confidence sort (`matches.sort(key=lambda m:
-m.confidence)`): insert a hit after every already-placed hit with
confidence at least its own. -/
def insertByConf (m : Match) : List Match → List Match
  | [] => [m]
  | k :: rest =>
    if k.confidence ≤ m.confidence then m :: k :: rest
    else k :: insertByConf m rest

/-- Stable insertion sort realizing Python's stable `list.sort` with key
`-confidence`. -/
def sortByConfDesc (ms : List Match) : List Match :=
  ms.foldr insertByConf []

/-- The greedy keep loop of `TemplateMatcher._deduplicate`: keep a hit only
when no already-kept hit lies within `distance` on both axes. -/
def keepLoop (distance : Int) : List Match → List Match → List Match
  | kept, [] => kept
  | kept, m :: rest =>
    if kept.any (fun k =>
        decide (|m.x - k.x| < distance ∧ |m.y - k.y| < distance)) then
      keepLoop distance kept rest
    else keepLoop distance (kept ++ [m]) rest

/-- `TemplateMatcher._deduplicate` (collision radius `distance`, 10 at every
call site): sort by descending confidence, then greedily keep. -/
def deduplicate (ms : List Match) (distance : Int) : List Match :=
  if ms.isEmpty then []
  else keepLoop distance [] (sortByConfDesc ms)

/-! ## Rarity classifier (overlay/vision.py, `GameStateReader._detect_stars`) -/

/-- A frame for the rarity classifier: its dimensions plus the gold/silver
HSV pixel counts of any sampling strip (x, y, w, h), abstracting the
`cv2.inRange`/`countNonZero` passes over the cropped strip. -/
structure Frame where
  h : Int
  w : Int
  goldPixels : Int → Int → Int → Int → Nat
  silverPixels : Int → Int → Int → Int → Nat

/-- A sampling strip rectangle. -/
structure Strip where
  x : Int
  y : Int
  w : Int
  h : Int
deriving DecidableEq

/-- The pip strip computed by `_detect_stars`: offset (−10, +60) from the
anchor, nominal 80×20, clamped to the frame bounds. -/
def pip_strip (fh fw mx my : Int) : Strip :=
  let pip_y := my + 60
  let pip_x := mx - 10
  let px := max 0 pip_x
  let py := max 0 pip_y
  let pw := if px + 80 > fw then fw - px else 80
  let ph := if py + 20 > fh then fh - py else 20
  ⟨px, py, pw, ph⟩

/-- `GameStateReader._detect_stars`: returns 0 when the clamped strip has
non-positive width or height; otherwise classifies by gold/silver pixel
counts, defaulting to 1. -/
def detect_stars (f : Frame) (mx my : Int) : Nat :=
  let st := pip_strip f.h f.w mx my
  if st.w ≤ 0 ∨ st.h ≤ 0 then 0
  else
    let gold := f.goldPixels st.x st.y st.w st.h
    let silver := f.silverPixels st.x st.y st.w st.h
    if gold > 50 then 3
    else if gold + silver > 30 then 2
    else if gold + silver > 5 then 1
    else 1

/-- A 10×10 frame with no gold or silver pixels anywhere: any anchor's strip
lies below the bottom edge. -/
def tinyFrame : Frame :=
  ⟨10, 10, fun _ _ _ _ => 0, fun _ _ _ _ => 0⟩

/-- A full-resolution frame with no gold or silver pixels anywhere. -/
def darkFrame : Frame :=
  ⟨1440, 2560, fun _ _ _ _ => 0, fun _ _ _ _ => 0⟩

/-! ## Hex grid geometry (overlay/config.py, `TFTLayout.board_hex_regions`) -/

/-- `config.ScreenRegion`. -/
structure ScreenRegion where
  x : Int
  y : Int
  w : Int
  h : Int
deriving DecidableEq

/-- The hex-grid calibration parameters of `TFTLayout`. -/
structure HexGrid where
  origin_x : Int
  origin_y : Int
  cols : Nat
  rows : Nat
  col_width : Int
  row_height : Int
  row_offset : Int
  portrait_h : Int

/-- `TFTLayout.board_hex_regions`: the per-cell capture regions, row-major
with row 0 first. -/
def board_hex_regions (L : HexGrid) : List ScreenRegion :=
  (List.range L.rows).flatMap (fun (row : Nat) =>
    (List.range L.cols).map (fun (col : Nat) =>
      let x := L.origin_x + (col : Int) * L.col_width +
        (if row % 2 = 1 then L.row_offset else 0)
      let y := L.origin_y + (row : Int) * L.row_height
      ⟨x, y, L.col_width, L.portrait_h⟩))

/-- The hardcoded 2560×1440 calibration of `TFTLayout`. -/
def defaultHexGrid : HexGrid :=
  ⟨600, 555, 7, 4, 194, 130, 97, 115⟩

lemma rcountL_append (rows1 rows2 : List RoundRow) (rid : Nat) :
    rcountL (rows1 ++ rows2) rid = rcountL rows1 rid + rcountL rows2 rid := by
  simp [rcountL, List.filter_append]

lemma rcountL_singleton (row : RoundRow) (rid : Nat) :
    rcountL [row] rid = if row.run_id = rid then 1 else 0 := by
  by_cases h : row.run_id = rid <;> simp [rcountL, h]

lemma rcountL_eq_zero {rows : List RoundRow} {rid : Nat}
    (h : ∀ rr ∈ rows, rr.run_id ≠ rid) : rcountL rows rid = 0 := by
  unfold rcountL
  rw [List.length_eq_zero, List.filter_eq_nil_iff]
  intro rr hrr
  simp [h rr hrr]

lemma inv_initState : Inv initState := by
  refine ⟨?_, ?_, ?_, ?_, ?_⟩ <;> intros <;> simp_all [initState, rcountL]

lemma inv_end_run {s : RecorderState} (h : Inv s) (reason : String) :
    Inv (end_run s reason) := by
  cases hrun : s.run_id with
  | none => simpa [end_run, hrun] using h
  | some rid =>
    obtain ⟨hlt, hcnt, r0, hr0, hopen⟩ := h.active rid hrun
    simp only [end_run, hrun]
    refine ⟨?_, ?_, ?_, ?_, ?_⟩
    · intro i hi
      dsimp only at hi ⊢
      rcases eq_or_ne i rid with rfl | hne
      · omega
      · simp [hne, h.fresh i hi]
    · exact h.rows_bound
    · intro i r hr
      dsimp only at hr ⊢
      rcases eq_or_ne i rid with rfl | hne
      · rw [if_pos rfl, hr0] at hr
        simp only [Option.map_some'] at hr
        obtain rfl := Option.some_inj.mp hr
        exact h.counts i r0 hr0
      · rw [if_neg hne] at hr
        exact h.counts i r hr
    · intro i r hr
      dsimp only at hr
      rcases eq_or_ne i rid with rfl | hne
      · rw [if_pos rfl, hr0] at hr
        simp only [Option.map_some'] at hr
        obtain rfl := Option.some_inj.mp hr
        simp
      · rw [if_neg hne] at hr
        exact h.closed_iff i r hr
    · intro rid2 hr
      simp at hr

lemma end_run_next_id (s : RecorderState) (reason : String) :
    (end_run s reason).next_id = s.next_id := by
  cases h : s.run_id <;> simp [end_run, h]

lemma end_run_round_rows (s : RecorderState) (reason : String) :
    (end_run s reason).round_rows = s.round_rows := by
  cases h : s.run_id <;> simp [end_run, h]

lemma inv_start_run {s : RecorderState} (h : Inv s) : Inv (start_run s) := by
  have ht : Inv (if s.run_id.isSome then end_run s "abandoned" else s) := by
    split
    · exact inv_end_run h _
    · exact h
  simp only [start_run]
  generalize (if s.run_id.isSome then end_run s "abandoned" else s) = t at ht
  refine ⟨?_, ?_, ?_, ?_, ?_⟩
  · intro i hi
    dsimp only at hi ⊢
    have hne : i ≠ t.next_id := by omega
    simp only [if_neg hne]
    exact ht.fresh i (by omega)
  · intro rr hrr
    dsimp only at hrr ⊢
    exact Nat.lt_succ_of_lt (ht.rows_bound rr hrr)
  · intro i r hr
    dsimp only at hr ⊢
    rcases eq_or_ne i t.next_id with rfl | hne
    · rw [if_pos rfl] at hr
      rw [← Option.some_inj.mp hr]
      exact (rcountL_eq_zero (fun rr hrr =>
        Nat.ne_of_lt (ht.rows_bound rr hrr))).symm
    · rw [if_neg hne] at hr
      exact ht.counts i r hr
  · intro i r hr
    dsimp only at hr
    rcases eq_or_ne i t.next_id with rfl | hne
    · rw [if_pos rfl] at hr
      rw [← Option.some_inj.mp hr]
      simp
    · rw [if_neg hne] at hr
      exact ht.closed_iff i r hr
  · intro rid hr
    dsimp only at hr ⊢
    have hrid : rid = t.next_id := (Option.some_inj.mp hr).symm
    subst hrid
    refine ⟨Nat.lt_succ_self _, ?_, ?_⟩
    · exact (rcountL_eq_zero (fun rr hrr =>
        Nat.ne_of_lt (ht.rows_bound rr hrr))).symm
    · exact ⟨_, by rw [if_pos rfl], rfl⟩

lemma inv_record_round {s : RecorderState} (h : Inv s) (rn : String)
    (g l lv : Option Int) (cc : Int) (sh : List String)
    (b be : Option (List Match)) (pj : Option Int) :
    Inv (record_round s rn g l lv cc sh b be pj) := by
  cases hrun : s.run_id with
  | none => simpa [record_round, hrun] using h
  | some rid =>
    obtain ⟨hlt, hcnt, r0, hr0, hopen⟩ := h.active rid hrun
    simp only [record_round, hrun]
    refine ⟨?_, ?_, ?_, ?_, ?_⟩
    · intro i hi
      dsimp only at hi ⊢
      rcases eq_or_ne i rid with rfl | hne
      · omega
      · simp [hne, h.fresh i hi]
    · intro rr hrr
      dsimp only at hrr ⊢
      rcases List.mem_append.mp hrr with hmem | hmem
      · exact h.rows_bound rr hmem
      · obtain rfl := List.mem_singleton.mp hmem
        exact hlt
    · intro i r hr
      dsimp only at hr ⊢
      rw [rcountL_append, rcountL_singleton]
      dsimp only
      rcases eq_or_ne i rid with rfl | hne
      · rw [if_pos rfl, hr0] at hr
        simp only [Option.map_some'] at hr
        obtain rfl := Option.some_inj.mp hr
        rw [if_pos rfl]
        dsimp only
        omega
      · rw [if_neg hne] at hr
        rw [if_neg (fun hh => hne hh.symm)]
        rw [h.counts i r hr]
        omega
    · intro i r hr
      dsimp only at hr
      rcases eq_or_ne i rid with rfl | hne
      · rw [if_pos rfl, hr0] at hr
        simp only [Option.map_some'] at hr
        obtain rfl := Option.some_inj.mp hr
        exact h.closed_iff _ r0 hr0
      · rw [if_neg hne] at hr
        exact h.closed_iff i r hr
    · intro rid2 hr
      dsimp only at hr ⊢
      obtain rfl := Option.some_inj.mp hr
      refine ⟨hlt, ?_, ?_⟩
      · rw [rcountL_append, rcountL_singleton]
        dsimp only
        rw [if_pos rfl]
        omega
      · refine ⟨{ r0 with rounds_completed := s.rounds_completed + 1 }, ?_, ?_⟩
        · rw [if_pos rfl, hr0]
          rfl
        · exact hopen

/-- Every state reachable by recorder operations satisfies the invariant. -/
lemma reachable_inv {s : RecorderState} (h : Reachable s) : Inv s := by
  induction h with
  | init => exact inv_initState
  | start _ ih => exact inv_start_run ih
  | record rn g l lv cc sh b be pj _ ih =>
    exact inv_record_round ih rn g l lv cc sh b be pj
  | close reason _ ih => exact inv_end_run ih reason

lemma end_run_run_id (s : RecorderState) (reason : String) :
    (end_run s reason).run_id = none := by
  cases h : s.run_id with
  | none => simpa [end_run, h] using h
  | some rid => simp [end_run, h]

/-- C10: calling `record_round` while no run is active is a no-op: the whole
recorder/database state is unchanged (no round row, no counter bump, no
tracker update). -/
theorem c10_record_round_noop (s : RecorderState) (h : s.run_id = none)
    (rn : String) (g l lv : Option Int) (cc : Int) (sh : List String)
    (b be : Option (List Match)) (pj : Option Int) :
    record_round s rn g l lv cc sh b be pj = s := by
  simp [record_round, h]

/-- Witness for C10 on the fresh recorder. -/
theorem c10_record_round_noop_witness :
    record_round initState "1-1" (some 10) (some 2) (some 3) 5 [] none none
      none = initState :=
  c10_record_round_noop initState rfl "1-1" (some 10) (some 2) (some 3) 5 []
    none none none

/-- C3: starting a run while one is active closes the prior run with end
reason "abandoned" before opening the new one (the new id is distinct from
the prior); closing the active run stamps a non-null `ended_at` and at that
moment its `rounds_completed` equals the number of round rows written under
it; and every closed run has a non-null `ended_at`. -/
theorem c3_run_lifecycle (s : RecorderState) (hs : Reachable s) (rid : Nat)
    (hact : s.run_id = some rid) (reason : String) :
    (∃ r, (start_run s).runs rid = some r ∧ r.end_reason = some "abandoned" ∧
      r.ended_at ≠ none) ∧
    (start_run s).run_id = some s.next_id ∧ rid ≠ s.next_id ∧
    (∃ r, (end_run s reason).runs rid = some r ∧ r.ended_at ≠ none ∧
      r.rounds_completed = rcountL (end_run s reason).round_rows rid) ∧
    (∀ i r, s.runs i = some r → r.end_reason ≠ none → r.ended_at ≠ none) := by
  have hinv := reachable_inv hs
  obtain ⟨hlt, hcnt, r0, hr0, hopen⟩ := hinv.active rid hact
  have h1 : (start_run s).runs rid =
      some { r0 with ended_at := some s.clock, end_reason := some "abandoned" } := by
    simp only [start_run, hact, end_run, Option.isSome_some, if_true]
    rw [if_neg (Nat.ne_of_lt hlt), hr0]
    rfl
  have h2 : (start_run s).run_id = some s.next_id := by
    simp only [start_run, hact, end_run, Option.isSome_some, if_true]
  have h3 : (end_run s reason).runs rid =
      some { r0 with ended_at := some s.clock, end_reason := some reason } := by
    simp only [end_run, hact, if_true]
    rw [hr0]
    rfl
  refine ⟨⟨_, h1, rfl, by simp⟩, h2, Nat.ne_of_lt hlt, ⟨_, h3, by simp, ?_⟩, ?_⟩
  · rw [end_run_round_rows]
    exact hinv.counts rid r0 hr0
  · intro i r hri hne hcontra
    exact hne ((hinv.closed_iff i r hri).mpr hcontra)

/-- Witness for C3 on a reachable state with an active run. -/
theorem c3_run_lifecycle_witness :
    Reachable (start_run initState) ∧
    (start_run initState).run_id = some 1 ∧
    ((∃ r, (start_run (start_run initState)).runs 1 = some r ∧
        r.end_reason = some "abandoned" ∧ r.ended_at ≠ none) ∧
      (start_run (start_run initState)).run_id =
        some (start_run initState).next_id ∧
      1 ≠ (start_run initState).next_id ∧
      (∃ r, (end_run (start_run initState) "completed").runs 1 = some r ∧
        r.ended_at ≠ none ∧
        r.rounds_completed =
          rcountL (end_run (start_run initState) "completed").round_rows 1) ∧
      (∀ i r, (start_run initState).runs i = some r →
        r.end_reason ≠ none → r.ended_at ≠ none)) :=
  ⟨Reachable.start Reachable.init, rfl,
   c3_run_lifecycle (start_run initState) (Reachable.start Reachable.init) 1
     rfl "completed"⟩

/-- Effect of `record_round` on an active run: the exact row appended and
the tracker updates. -/
lemma record_round_spec {s : RecorderState} {rid : Nat}
    (h : s.run_id = some rid) (rn : String) (g l lv : Option Int) (cc : Int)
    (sh : List String) (b be : Option (List Match)) (pj : Option Int) :
    (record_round s rn g l lv cc sh b be pj).round_rows =
      s.round_rows ++ [⟨rid, rn, g, l, lv, cc, sh,
        max 0 ((match s.prev_components with
                | some p => p
                | none => cc) - cc),
        (match s.prev_lives, lv with
         | some p, some l2 => max 0 (p - l2)
         | _, _ => 0),
        (b.getD []).map (fun m => (m.name, m.stars)),
        (be.getD []).map (fun m => (m.name, m.stars)), pj,
        count_star_ups s.prev_champion_stars b be⟩] ∧
    (record_round s rn g l lv cc sh b be pj).run_id = some rid ∧
    (record_round s rn g l lv cc sh b be pj).prev_components = some cc ∧
    (record_round s rn g l lv cc sh b be pj).prev_lives =
      (if lv.isSome then lv else s.prev_lives) ∧
    (record_round s rn g l lv cc sh b be pj).prev_champion_stars =
      build_star_map b be ∧
    (record_round s rn g l lv cc sh b be pj).runs = (fun i =>
      if i = rid then (s.runs i).map
        (fun r => { r with rounds_completed := s.rounds_completed + 1 })
      else s.runs i) := by
  refine ⟨?_, ?_, ?_, ?_, ?_, ?_⟩ <;> simp [record_round, h]

/-- C7: for two consecutive `record_round` calls on an active run where the
lives of both rounds were read, the second row has
`items_built = max(0, previous components - current components)` and
`life_lost = max(0, previous lives - current lives)`; in particular
component counts 5 then 3 give `items_built = 2`, and lives 3 then 2 give
`life_lost = 1`. -/
theorem c7_items_built_life_lost (s : RecorderState) (rid : Nat)
    (hact : s.run_id = some rid) (rn1 rn2 : String) (g1 g2 l1 l2 : Option Int)
    (lv1 lv2 : Int) (c1 c2 : Int) (sh1 sh2 : List String)
    (b1 be1 b2 be2 : Option (List Match)) (p1 p2 : Option Int) :
    ∃ row : RoundRow,
      (record_round (record_round s rn1 g1 l1 (some lv1) c1 sh1 b1 be1 p1)
          rn2 g2 l2 (some lv2) c2 sh2 b2 be2 p2).round_rows =
        (record_round s rn1 g1 l1 (some lv1) c1 sh1 b1 be1 p1).round_rows ++
          [row] ∧
      row.items_built = max 0 (c1 - c2) ∧
      row.life_lost = max 0 (lv1 - lv2) ∧
      (c1 = 5 → c2 = 3 → row.items_built = 2) ∧
      (lv1 = 3 → lv2 = 2 → row.life_lost = 1) := by
  obtain ⟨-, hid1, hpc1, hpl1, -, -⟩ :=
    record_round_spec hact rn1 g1 l1 (some lv1) c1 sh1 b1 be1 p1
  have hpl1s : (record_round s rn1 g1 l1 (some lv1) c1 sh1 b1 be1 p1).prev_lives
      = some lv1 := by simpa using hpl1
  obtain ⟨hrows2, -, -, -, -, -⟩ :=
    record_round_spec hid1 rn2 g2 l2 (some lv2) c2 sh2 b2 be2 p2
  have hib : (max 0 ((match (record_round s rn1 g1 l1 (some lv1) c1 sh1 b1
      be1 p1).prev_components with
        | some p => p
        | none => c2) - c2) : Int) = max 0 (c1 - c2) := by
    rw [hpc1]
  have hll : (match (record_round s rn1 g1 l1 (some lv1) c1 sh1 b1
      be1 p1).prev_lives, some lv2 with
        | some p, some l2 => max 0 (p - l2)
        | _, _ => (0 : Int)) = max 0 (lv1 - lv2) := by
    rw [hpl1s]
  refine ⟨_, hrows2, hib, hll, ?_, ?_⟩
  · intro h5 h3
    subst h5
    subst h3
    dsimp only
    rw [hpc1]
    decide
  · intro ha hb
    subst ha
    subst hb
    dsimp only
    rw [hpl1s]
    decide

/-- Witness for C7 at concrete rounds with components 5 then 3 and lives
3 then 2. -/
theorem c7_items_built_life_lost_witness :
    ∃ row : RoundRow,
      (record_round (record_round (start_run initState) "1-1" (some 10)
          (some 2) (some 3) 5 [] none none none)
          "1-2" (some 12) (some 2) (some 2) 3 [] none none none).round_rows =
        (record_round (start_run initState) "1-1" (some 10) (some 2) (some 3)
          5 [] none none none).round_rows ++ [row] ∧
      row.items_built = max 0 (5 - 3) ∧
      row.life_lost = max 0 (3 - 2) ∧
      ((5 : Int) = 5 → (3 : Int) = 3 → row.items_built = 2) ∧
      ((3 : Int) = 3 → (2 : Int) = 2 → row.life_lost = 1) :=
  c7_items_built_life_lost (start_run initState) 1 rfl "1-1" "1-2" (some 10)
    (some 12) (some 2) (some 2) 3 2 5 3 [] [] none none none none none none

/-- `count_star_ups` as a sum over the current star map: each unit
contributes its full rarity gain when its previous entry is positive. -/
lemma count_star_ups_eq_sum (prev : List (String × Nat))
    (b be : Option (List Match)) :
    count_star_ups prev b be =
      ((build_star_map b be).map (fun p =>
        if p.2 > dictGet prev p.1 0 ∧ dictGet prev p.1 0 > 0
        then p.2 - dictGet prev p.1 0 else 0)).sum := by
  unfold count_star_ups
  generalize build_star_map b be = l
  suffices h : ∀ (l : List (String × Nat)) (n : Nat),
      l.foldl (fun count p =>
        let pv := dictGet prev p.1 0
        if p.2 > pv ∧ pv > 0 then count + (p.2 - pv) else count) n =
      n + (l.map (fun p =>
        if p.2 > dictGet prev p.1 0 ∧ dictGet prev p.1 0 > 0
        then p.2 - dictGet prev p.1 0 else 0)).sum by
    simpa using h l 0
  intro l
  induction l with
  | nil => intro n; simp
  | cons p t ih =>
    intro n
    simp only [List.foldl_cons, List.map_cons, List.sum_cons]
    rw [ih]
    by_cases hc : p.2 > dictGet prev p.1 0 ∧ dictGet prev p.1 0 > 0
    · simp only [if_pos hc]
      omega
    · simp only [if_neg hc]
      omega

/-- C5 counterexample: a single unit going from rarity 1 to rarity 3 between
two recorded rounds produces `star_ups = 2` (the number of star levels
gained), while the number of units whose rarity strictly increased is 1. -/
theorem c5_star_ups_counterexample :
    ((record_round (record_round (start_run initState) "1-1" none none none 0
        [] (some [champA1]) none none) "1-2" none none none 0 []
        (some [champA3]) none none).round_rows.map (fun r => r.star_ups)) =
      [0, 2] ∧
    starUpUnitCount (build_star_map (some [champA1]) none)
      (build_star_map (some [champA3]) none) = 1 ∧ (2 : Nat) ≠ 1 := by
  refine ⟨by decide, by decide, by decide⟩

/-- C5 amended: at each recorded round boundary the row's `star_ups` equals
the total number of star levels gained since the last recorded round — the
sum over units in the current star map of (current rarity − previous rarity)
for units whose rarity strictly increased and whose previous entry is
positive; units absent from the previous star map (newly appearing, at any
rarity) contribute nothing. -/
theorem c5_star_ups_amended (s : RecorderState) (rid : Nat)
    (hact : s.run_id = some rid) (rn1 rn2 : String)
    (g1 g2 l1 l2 lv1 lv2 : Option Int) (c1 c2 : Int) (sh1 sh2 : List String)
    (b1 be1 b2 be2 : Option (List Match)) (p1 p2 : Option Int) :
    ∃ row : RoundRow,
      (record_round (record_round s rn1 g1 l1 lv1 c1 sh1 b1 be1 p1)
          rn2 g2 l2 lv2 c2 sh2 b2 be2 p2).round_rows =
        (record_round s rn1 g1 l1 lv1 c1 sh1 b1 be1 p1).round_rows ++
          [row] ∧
      row.star_ups = ((build_star_map b2 be2).map (fun p =>
        if p.2 > dictGet (build_star_map b1 be1) p.1 0 ∧
          dictGet (build_star_map b1 be1) p.1 0 > 0
        then p.2 - dictGet (build_star_map b1 be1) p.1 0 else 0)).sum := by
  obtain ⟨-, hid1, -, -, hstars1, -⟩ :=
    record_round_spec hact rn1 g1 l1 lv1 c1 sh1 b1 be1 p1
  obtain ⟨hrows2, -, -, -, -, -⟩ :=
    record_round_spec hid1 rn2 g2 l2 lv2 c2 sh2 b2 be2 p2
  refine ⟨_, hrows2, ?_⟩
  dsimp only
  rw [hstars1, count_star_ups_eq_sum]

/-- Witness for C5's amended statement at the counterexample's inputs. -/
theorem c5_star_ups_amended_witness :
    ∃ row : RoundRow,
      (record_round (record_round (start_run initState) "1-1" none none none 0
          [] (some [champA1]) none none) "1-2" none none none 0 []
          (some [champA3]) none none).round_rows =
        (record_round (start_run initState) "1-1" none none none 0 []
          (some [champA1]) none none).round_rows ++ [row] ∧
      row.star_ups = ((build_star_map (some [champA3]) none).map (fun p =>
        if p.2 > dictGet (build_star_map (some [champA1]) none) p.1 0 ∧
          dictGet (build_star_map (some [champA1]) none) p.1 0 > 0
        then p.2 - dictGet (build_star_map (some [champA1]) none) p.1 0
        else 0)).sum :=
  c5_star_ups_amended (start_run initState) 1 rfl "1-1" "1-2" none none none
    none none none 0 0 [] [] (some [champA1]) none (some [champA3]) none
    none none

/-- C4: when the round label is lost on a cycle whose previous label was the
terminal "3-10" while a run is active, the cycle first records round "3-10"
under the active run and then closes that run with end reason "completed"
(not "abandoned"), resetting the round cursor. -/
theorem c4_completion_on_signal_loss (rec : RecorderState)
    (hs : Reachable rec) (rid : Nat) (hact : rec.run_id = some rid)
    (gold level lives : Option Int) (nc : Int) (shop : List String) :
    (vision_cycle rec (some "3-10") none gold level lives nc shop).2 =
      none ∧
    (∃ row : RoundRow,
      (vision_cycle rec (some "3-10") none gold level lives nc
        shop).1.round_rows = rec.round_rows ++ [row] ∧
      row.run_id = rid ∧ row.round_number = "3-10") ∧
    (∃ r, (vision_cycle rec (some "3-10") none gold level lives nc
        shop).1.runs rid = some r ∧ r.end_reason = some "completed" ∧
      r.end_reason ≠ some "abandoned" ∧ r.ended_at ≠ none) ∧
    (vision_cycle rec (some "3-10") none gold level lives nc
      shop).1.run_id = none := by
  have hinv := reachable_inv hs
  obtain ⟨hlt, hcnt, r0, hr0, hopen⟩ := hinv.active rid hact
  have hvc : vision_cycle rec (some "3-10") none gold level lives nc shop =
      (end_run (record_round rec "3-10" gold level lives nc shop none none
        none) "completed", none) := by
    unfold vision_cycle
    rw [if_pos ⟨rfl, rfl, by simp [hact]⟩]
  obtain ⟨hrows, hid, -, -, -, hruns⟩ :=
    record_round_spec hact "3-10" gold level lives nc shop none none none
  have hruns1 : (record_round rec "3-10" gold level lives nc shop none none
      none).runs rid = some { r0 with
        rounds_completed := rec.rounds_completed + 1 } := by
    rw [hruns]
    simp [hr0]
  have hclosed : (end_run (record_round rec "3-10" gold level lives nc shop
      none none none) "completed").runs rid = some { r0 with
        rounds_completed := rec.rounds_completed + 1,
        ended_at := some (record_round rec "3-10" gold level lives nc shop
          none none none).clock,
        end_reason := some "completed" } := by
    simp only [end_run, hid, if_true]
    rw [hruns1]
    rfl
  have hrowex : ∃ row : RoundRow,
      (record_round rec "3-10" gold level lives nc shop none none
        none).round_rows = rec.round_rows ++ [row] ∧
      row.run_id = rid ∧ row.round_number = "3-10" := ⟨_, hrows, rfl, rfl⟩
  rw [hvc]
  obtain ⟨row, hrw1, hrw2, hrw3⟩ := hrowex
  refine ⟨rfl, ⟨row, ?_, hrw2, hrw3⟩,
    ⟨_, hclosed, rfl, by simp, by simp⟩, end_run_run_id _ _⟩
  rw [end_run_round_rows]
  exact hrw1

/-- Witness for C4 on a reachable state with an active run. -/
theorem c4_completion_on_signal_loss_witness :
    (vision_cycle (start_run initState) (some "3-10") none (some 7) (some 4)
      (some 3) 2 []).2 = none ∧
    (∃ row : RoundRow,
      (vision_cycle (start_run initState) (some "3-10") none (some 7) (some 4)
        (some 3) 2 []).1.round_rows =
        (start_run initState).round_rows ++ [row] ∧
      row.run_id = 1 ∧ row.round_number = "3-10") ∧
    (∃ r, (vision_cycle (start_run initState) (some "3-10") none (some 7)
        (some 4) (some 3) 2 []).1.runs 1 = some r ∧
      r.end_reason = some "completed" ∧ r.end_reason ≠ some "abandoned" ∧
      r.ended_at ≠ none) ∧
    (vision_cycle (start_run initState) (some "3-10") none (some 7) (some 4)
      (some 3) 2 []).1.run_id = none :=
  c4_completion_on_signal_loss (start_run initState)
    (Reachable.start Reachable.init) 1 rfl (some 7) (some 4) (some 3) 2 []

/-- C8: two raw hits within the collision radius (both coordinate deltas
strictly below 10) collapse to exactly the single higher-confidence hit,
whichever order they appear in. -/
theorem c8_dedup_keeps_higher_confidence (m1 m2 : Match)
    (hx : |m1.x - m2.x| < 10) (hy : |m1.y - m2.y| < 10)
    (hc : m2.confidence < m1.confidence) :
    deduplicate [m1, m2] 10 = [m1] ∧ deduplicate [m2, m1] 10 = [m1] := by
  have hx2 : |m2.x - m1.x| < 10 := by rw [abs_sub_comm]; exact hx
  have hy2 : |m2.y - m1.y| < 10 := by rw [abs_sub_comm]; exact hy
  have hsort1 : sortByConfDesc [m1, m2] = [m1, m2] := by
    simp [sortByConfDesc, insertByConf, le_of_lt hc]
  have hsort2 : sortByConfDesc [m2, m1] = [m1, m2] := by
    simp [sortByConfDesc, insertByConf, not_le.mpr hc]
  have hkeep : keepLoop 10 [] [m1, m2] = [m1] := by
    simp [keepLoop, hx2, hy2]
  constructor
  · rw [deduplicate]
    simp only [List.isEmpty_cons, if_false, hsort1, hkeep]
    simp [hkeep]
  · rw [deduplicate]
    simp only [List.isEmpty_cons, if_false, hsort2, hkeep]
    simp [hkeep]

/-- Witness for C8 at two concrete overlapping hits. -/
theorem c8_dedup_keeps_higher_confidence_witness :
    deduplicate [⟨"a", 5, 5, 1, 0⟩, ⟨"b", 9, 2, 0, 0⟩] 10 =
      [⟨"a", 5, 5, 1, 0⟩] ∧
    deduplicate [⟨"b", 9, 2, 0, 0⟩, ⟨"a", 5, 5, 1, 0⟩] 10 =
      [⟨"a", 5, 5, 1, 0⟩] :=
  c8_dedup_keeps_higher_confidence ⟨"a", 5, 5, 1, 0⟩ ⟨"b", 9, 2, 0, 0⟩
    (by norm_num) (by norm_num) (by norm_num)

/-- C6 counterexample: on a 10×10 frame the strip below anchor (0, 0) clamps
to negative height, and `_detect_stars` returns 0 (the Match dataclass's
"unknown" star value), not the tier 1 the claim requires; in particular the
result is outside {1, 2, 3}. -/
theorem c6_rarity_counterexample :
    detect_stars tinyFrame 0 0 = 0 ∧
    ¬(detect_stars tinyFrame 0 0 = 1 ∨ detect_stars tinyFrame 0 0 = 2 ∨
      detect_stars tinyFrame 0 0 = 3) := by
  refine ⟨by decide, by decide⟩

/-- C6 amended: the rarity classifier returns a value in {0, 1, 2, 3}; it
returns 0 (unknown) exactly when the clamped strip has non-positive width or
height, and a tier in {1, 2, 3} otherwise — never an error. -/
theorem c6_rarity_classifier_range (f : Frame) (mx my : Int) :
    (detect_stars f mx my = 0 ∨ detect_stars f mx my = 1 ∨
      detect_stars f mx my = 2 ∨ detect_stars f mx my = 3) ∧
    (detect_stars f mx my = 0 ↔
      ((pip_strip f.h f.w mx my).w ≤ 0 ∨ (pip_strip f.h f.w mx my).h ≤ 0)) ∧
    (¬((pip_strip f.h f.w mx my).w ≤ 0 ∨ (pip_strip f.h f.w mx my).h ≤ 0) →
      (detect_stars f mx my = 1 ∨ detect_stars f mx my = 2 ∨
        detect_stars f mx my = 3)) := by
  unfold detect_stars
  by_cases hz : (pip_strip f.h f.w mx my).w ≤ 0 ∨ (pip_strip f.h f.w mx my).h ≤ 0
  · rw [if_pos hz]
    exact ⟨Or.inl rfl, by simp [hz], fun hcon => absurd hz hcon⟩
  · rw [if_neg hz]
    dsimp only
    generalize f.goldPixels (pip_strip f.h f.w mx my).x
      (pip_strip f.h f.w mx my).y (pip_strip f.h f.w mx my).w
      (pip_strip f.h f.w mx my).h = g
    generalize f.silverPixels (pip_strip f.h f.w mx my).x
      (pip_strip f.h f.w mx my).y (pip_strip f.h f.w mx my).w
      (pip_strip f.h f.w mx my).h = sv
    by_cases h1 : g > 50
    · simp [h1, hz]
    · by_cases h2 : g + sv > 30
      · simp [h1, h2, hz]
      · by_cases h3 : g + sv > 5
        · simp [h1, h2, h3, hz]
        · simp [h1, h2, h3, hz]

/-- Witness for C6's amended statement: a well-inside anchor on a dark frame
classifies (by the default) as tier 1. -/
theorem c6_rarity_classifier_range_witness :
    detect_stars darkFrame 100 100 = 1 ∨ detect_stars darkFrame 100 100 = 2 ∨
      detect_stars darkFrame 100 100 = 3 :=
  (c6_rarity_classifier_range darkFrame 100 100).2.2 (by decide)

lemma rangeGrid_length {α : Type} (f : Nat → Nat → α) (n m : Nat) :
    ((List.range n).flatMap (fun i => (List.range m).map (f i))).length =
      n * m := by
  induction n with
  | zero => simp
  | succ k ih => simp [List.range_succ, ih, Nat.succ_mul]

lemma rangeGrid_get {α : Type} (f : Nat → Nat → α) {n m r c : Nat}
    (hr : r < n) (hc : c < m) :
    ((List.range n).flatMap
      (fun i => (List.range m).map (f i)))[r * m + c]? = some (f r c) := by
  induction n with
  | zero => exact absurd hr (Nat.not_lt_zero r)
  | succ k ih =>
    rw [List.range_succ, List.flatMap_append]
    rcases Nat.lt_or_ge r k with hlt | hge
    · have hbound : r * m + c <
          ((List.range k).flatMap (fun i => (List.range m).map (f i))).length := by
        rw [rangeGrid_length]
        calc r * m + c < r * m + m := by omega
          _ = (r + 1) * m := by ring
          _ ≤ k * m := Nat.mul_le_mul_right m hlt
      rw [List.getElem?_append, if_pos hbound]
      exact ih hlt
    · have hrk : r = k := by omega
      subst hrk
      have hbound : ¬ (r * m + c <
          ((List.range r).flatMap (fun i => (List.range m).map (f i))).length) := by
        rw [rangeGrid_length]
        exact Nat.not_lt.mpr (Nat.le_add_right _ _)
      rw [List.getElem?_append, if_neg hbound, rangeGrid_length]
      have hsub : r * m + c - r * m = c := by omega
      rw [hsub]
      simp [List.flatMap_singleton, List.getElem?_map, List.getElem?_range hc]

/-- C9: the hex-grid region list is row-major (row 0 first) with the cell
for `(row, col)` at index `row * cols + col`, carrying
`x = origin.x + col * col_width + (odd_row_offset when row is odd)`,
`y = origin.y + row * row_height`, `w = col_width`, `h = cell_height`; the
list has exactly `rows * cols` entries, and the computation is a total
function of the calibration parameters. -/
theorem c9_hex_grid (L : HexGrid) (row col : Nat) (hr : row < L.rows)
    (hc : col < L.cols) :
    (board_hex_regions L).length = L.rows * L.cols ∧
    (board_hex_regions L)[row * L.cols + col]? =
      some ⟨L.origin_x + (col : Int) * L.col_width +
        (if row % 2 = 1 then L.row_offset else 0),
        L.origin_y + (row : Int) * L.row_height,
        L.col_width, L.portrait_h⟩ := by
  unfold board_hex_regions
  exact ⟨rangeGrid_length _ _ _, rangeGrid_get _ hr hc⟩

/-- Witness for C9 at the default calibration, cell (1, 2). -/
theorem c9_hex_grid_witness :
    (board_hex_regions defaultHexGrid).length =
      defaultHexGrid.rows * defaultHexGrid.cols ∧
    (board_hex_regions defaultHexGrid)[1 * defaultHexGrid.cols + 2]? =
      some ⟨defaultHexGrid.origin_x + (2 : Int) * defaultHexGrid.col_width +
        (if 1 % 2 = 1 then defaultHexGrid.row_offset else 0),
        defaultHexGrid.origin_y + (1 : Int) * defaultHexGrid.row_height,
        defaultHexGrid.col_width, defaultHexGrid.portrait_h⟩ :=
  c9_hex_grid defaultHexGrid 1 2 (by decide) (by decide)

/-- C1: the score projection engine computes
`component_score n r = n * 2500 * r`, per-round interest value
`min(gold / 10, 5) * 1000`, survival value `surviving_units * 250 * 30`,
time value `2750 * 30` (the projection basis is the fixed 30-round match),
and `projected_score`'s total is the sum of the four named components;
moreover `component_score 5 20 = 250000`, `interest_value 0 = 0`,
`interest_value 35 = 3000`, `interest_value 50 = 5000`, and
`interest_value 99 = 5000` (capped at 5 interest). -/
theorem c1_score_projection :
    (∀ n r, StrategyEngine.component_score n r = n * 2500 * r) ∧
    (∀ g, StrategyEngine.interest_value g = min (g / 10) 5 * 1000) ∧
    (∀ cr n g s,
      (StrategyEngine.projected_score cr n g s).component_pts =
        StrategyEngine.component_score n 30 ∧
      (StrategyEngine.projected_score cr n g s).interest_pts =
        StrategyEngine.interest_value g * 30 ∧
      (StrategyEngine.projected_score cr n g s).surviving_pts = s * 250 * 30 ∧
      (StrategyEngine.projected_score cr n g s).time_pts = 2750 * 30 ∧
      (StrategyEngine.projected_score cr n g s).total =
        (StrategyEngine.projected_score cr n g s).component_pts +
        (StrategyEngine.projected_score cr n g s).interest_pts +
        (StrategyEngine.projected_score cr n g s).surviving_pts +
        (StrategyEngine.projected_score cr n g s).time_pts) ∧
    StrategyEngine.component_score 5 20 = 250000 ∧
    StrategyEngine.interest_value 0 = 0 ∧
    StrategyEngine.interest_value 35 = 3000 ∧
    StrategyEngine.interest_value 50 = 5000 ∧
    StrategyEngine.interest_value 99 = 5000 := by
  refine ⟨fun n r => rfl, fun g => rfl, fun cr n g s => ?_, rfl, rfl, rfl, rfl, rfl⟩
  refine ⟨rfl, ?_, rfl, rfl, rfl⟩
  simp [StrategyEngine.projected_score, StrategyEngine.interest_value,
    Nat.mul_assoc]

/-- Witness for C1 at a concrete snapshot. -/
theorem c1_score_projection_witness :
    (StrategyEngine.projected_score 0 5 35 2).total =
      (StrategyEngine.projected_score 0 5 35 2).component_pts +
      (StrategyEngine.projected_score 0 5 35 2).interest_pts +
      (StrategyEngine.projected_score 0 5 35 2).surviving_pts +
      (StrategyEngine.projected_score 0 5 35 2).time_pts :=
  (c1_score_projection.2.2.1 0 5 35 2).2.2.2.2

/-- C2: round-label parsing maps "1-1" to 1, "2-5" to 15, "3-10" to 30;
`None`, the empty string, dash-free strings, and labels where either
dash-separated part is non-numeric (or where splitting on "-" does not give
exactly two parts) all map to 0. The function is total by construction, so
it never raises. -/
theorem c2_round_label_parsing :
    round_str_to_int (some "1-1") = 1 ∧
    round_str_to_int (some "2-5") = 15 ∧
    round_str_to_int (some "3-10") = 30 ∧
    round_str_to_int none = 0 ∧
    round_str_to_int (some "") = 0 ∧
    (∀ s : String, s.data.contains '-' = false → round_str_to_int (some s) = 0) ∧
    (∀ (s : String) (a b : List Char), splitOnChar '-' s.data [] = [a, b] →
      (pyInt a = none ∨ pyInt b = none) → round_str_to_int (some s) = 0) ∧
    (∀ s : String, (∀ a b : List Char, splitOnChar '-' s.data [] ≠ [a, b]) →
      round_str_to_int (some s) = 0) := by
  refine ⟨by decide, by decide, by decide, rfl, by decide, ?_, ?_, ?_⟩
  · intro s hdash
    simp only [round_str_to_int]
    by_cases hemp : s.data.isEmpty
    · rw [if_pos hemp]
    · rw [if_neg hemp, if_pos (by simpa using hdash)]
  · intro s a b hsplit hfail
    simp only [round_str_to_int]
    by_cases hemp : s.data.isEmpty
    · rw [if_pos hemp]
    · rw [if_neg hemp]
      by_cases hdash : s.data.contains '-'
      · rw [if_neg (by simpa using hdash), hsplit]
        cases hpa : pyInt a <;> cases hpb : pyInt b <;> simp_all
      · rw [if_pos (by simpa using hdash)]
  · intro s hsplit
    simp only [round_str_to_int]
    by_cases hemp : s.data.isEmpty
    · rw [if_pos hemp]
    · rw [if_neg hemp]
      by_cases hdash : s.data.contains '-'
      · rw [if_neg (by simpa using hdash)]
      · rw [if_pos (by simpa using hdash)]

/-- Witness for C2's quantified fallback cases at concrete labels. -/
theorem c2_round_label_parsing_witness :
    round_str_to_int (some "abc") = 0 ∧ round_str_to_int (some "a-b") = 0 :=
  ⟨c2_round_label_parsing.2.2.2.2.2.1 "abc" (by decide),
   c2_round_label_parsing.2.2.2.2.2.2.1 "a-b" "a".data "b".data (by decide)
     (Or.inl (by decide))⟩

end Tockers
